import Mathlib

/-!
Verification development for the nlmod repository: a data-preparation and
orchestration layer for MODFLOW 6 groundwater models.  The Python library
itself is not part of the checked sources (only the example notebook
docs/examples/16_groundwater_transport.ipynb and the CI workflow are), so the
library functions are modelled from the specification and the notebook
narrative, while the CI workflow is embedded directly from its YAML source.
-/

namespace Nlmod

/-! ### CI workflow (embedded from the workflow YAML source) -/

/-- A GitHub event relevant to the workflow triggers: a push to a branch, or a
pull request whose base is a branch. -/
inductive GhEvent
  | push (branch : String)
  | pullRequest (baseBranch : String)
deriving DecidableEq

/-- Branch filter of the `on.push` trigger in the workflow file. -/
def pushBranches : List String := ["main", "dev"]

/-- Branch filter of the `on.pull_request` trigger in the workflow file. -/
def pullRequestBranches : List String := ["main", "dev"]

/-- Whether the build job is triggered by an event, as the workflow file
configures it: a push to a branch in `pushBranches`, or a pull request with
base branch in `pullRequestBranches`. -/
def buildTriggered : GhEvent → Bool
  | GhEvent.push b => pushBranches.contains b
  | GhEvent.pullRequest b => pullRequestBranches.contains b

/-- Modelled from the spec: the trigger behaviour stated by the workflow file
comment, namely push or pull request on main, and only pull requests on the
dev branch. -/
def claimedTrigger : GhEvent → Bool
  | GhEvent.push b => b == "main"
  | GhEvent.pullRequest b => b == "main" || b == "dev"

/-! ### Freshwater / point-water head conversion (gwt.output) -/

/-- Modelled from the spec: the fluid density computed from a concentration,
`denseref + drhodc * conc`, as used by the buoyancy package and the head
conversion helpers of nlmod.gwt (code not in the checked sources). -/
def density (denseref drhodc conc : ℚ) : ℚ := denseref + drhodc * conc

/-- Modelled from the spec: conversion of a point-water head `hp` at cell
elevation `z` with concentration `conc` to the equivalent freshwater head
(nlmod.gwt.output.freshwater_head; code not in the checked sources). -/
def freshwater_head (denseref drhodc hp conc z : ℚ) : ℚ :=
  density denseref drhodc conc / denseref * hp -
    (density denseref drhodc conc - denseref) / denseref * z

/-- Modelled from the spec: conversion of a freshwater head `hf` at cell
elevation `z` with concentration `conc` back to the point-water head
(nlmod.gwt.output.pointwater_head; code not in the checked sources). -/
def pointwater_head (denseref drhodc hf conc z : ℚ) : ℚ :=
  denseref / density denseref drhodc conc * hf +
    (density denseref drhodc conc - denseref) / density denseref drhodc conc * z

/-- Pointwise application of a ternary function over three equally long
arrays, the shallow embedding of elementwise xarray arithmetic. -/
def map3 (f : ℚ → ℚ → ℚ → ℚ) : List ℚ → List ℚ → List ℚ → List ℚ
  | a :: as, b :: bs, c :: cs => f a b c :: map3 f as bs cs
  | _, _, _ => []

/-- Modelled from the spec: `freshwater_head` applied elementwise to a heads
array, a concentration array and the cell elevations of the model grid. -/
def freshwater_head_da (denseref drhodc : ℚ) (hp conc z : List ℚ) : List ℚ :=
  map3 (fun h c zc => freshwater_head denseref drhodc h c zc) hp conc z

/-- Modelled from the spec: `pointwater_head` applied elementwise to a
freshwater-heads array, a concentration array and the cell elevations. -/
def pointwater_head_da (denseref drhodc : ℚ) (hf conc z : List ℚ) : List ℚ :=
  map3 (fun h c zc => pointwater_head denseref drhodc h c zc) hf conc z

/-! ### Caching of downloaded datasets -/

/-- A file system, as an association list from paths to file contents. -/
structure FS where
  files : List (String × String)
deriving DecidableEq

/-- Read the contents stored at a path, if the file exists. -/
def FS.read (fs : FS) (path : String) : Option String :=
  (fs.files.find? fun e => e.1 == path).map Prod.snd

/-- Modelled from the spec: the file-existence caching shared by the
downloader functions (nlmod.read.regis.get_combined_layer_models,
nlmod.read.jarkus.get_dataset_jarkus, nlmod.read.knmi.get_recharge; code not
in the checked sources).  Given `cachedir` and `cachename`, if the file
`cachedir/cachename` exists its contents are returned and no download is
performed; otherwise the data is downloaded and written to that file.
Returns the dataset, the resulting file system, and whether a download was
performed. -/
def cachedDownload (download : Unit → String) (cachedir cachename : String)
    (fs : FS) : String × FS × Bool :=
  match fs.read (cachedir ++ "/" ++ cachename) with
  | some d => (d, fs, false)
  | none =>
    let d := download ()
    (d, ⟨(cachedir ++ "/" ++ cachename, d) :: fs.files⟩, true)

/-- A concrete downloader used to instantiate the caching theorem. -/
def regisDownload : Unit → String := fun _ => "regis-layer-data"

/-- A concrete file system in which the cache file already exists. -/
def fsWithCache : FS := ⟨[("cache/combined_layer_ds.nc", "cached-layer-data")]⟩

/-! ### Writing inputs, running the engine, reading outputs -/

/-- The files of a model workspace, split into the model input files written
by nlmod and the output files produced by the MODFLOW 6 engine. -/
structure ModelFiles where
  inputs : List (String × String)
  outputs : List (String × String)
deriving DecidableEq

/-- Modelled from the spec: nlmod.sim.write_and_run writes the model input
files from the simulation object and invokes the external MODFLOW 6 engine,
which computes the simulation and produces the output files (code not in the
checked sources).  The engine is a parameter: nlmod does not compute it. -/
def write_and_run (engine : List (String × String) → List (String × String))
    (simFiles : List (String × String)) (_fs : ModelFiles) : ModelFiles :=
  { inputs := simFiles, outputs := engine simFiles }

/-- Modelled from the spec: nlmod.gwf.output.get_heads_da reads the heads
output file produced by the engine and returns the file system unchanged
(code not in the checked sources). -/
def get_heads_da (fs : ModelFiles) : Option String × ModelFiles :=
  ((fs.outputs.find? fun e => e.1 == "heads").map Prod.snd, fs)

/-- Modelled from the spec: nlmod.gwt.output.get_concentration_da reads the
concentration output file produced by the engine and returns the file system
unchanged (code not in the checked sources). -/
def get_concentration_da (fs : ModelFiles) : Option String × ModelFiles :=
  ((fs.outputs.find? fun e => e.1 == "concentration").map Prod.snd, fs)

/-- A concrete engine used to instantiate the frame theorem. -/
def demoEngine : List (String × String) → List (String × String) :=
  fun _ => [("heads", "h-data"), ("concentration", "c-data")]

/-! ### The GHB package and ssm_sources registration -/

/-- The part of a model dataset relevant to building the GHB package: the
transport attribute and the list of packages registered as transport
sources or sinks. -/
structure GwfDS where
  transport : Nat
  ssm_sources : List String
deriving DecidableEq

/-- The general head boundary package built by nlmod.gwf.ghb. -/
structure GhbPackage where
  bhead : ℚ
  cond : ℚ
  auxValue : Option ℚ
deriving DecidableEq

/-- Modelled from the spec: nlmod.gwf.ghb builds the GHB package from the
model dataset; if an auxiliary variable is provided and the transport
attribute of the dataset is 1, the GHB package is registered in the
ssm_sources attribute of the dataset (code not in the checked sources). -/
def ghb (ds : GwfDS) (bhead cond : ℚ) (auxiliary : Option ℚ) : GwfDS × GhbPackage :=
  let dsOut :=
    if auxiliary.isSome && (ds.transport == 1) then
      { ds with ssm_sources := ds.ssm_sources ++ ["GHB"] }
    else ds
  (dsOut, ⟨bhead, cond, auxiliary⟩)

/-! ### Resampling a structured raster onto the model grid -/

/-- The source raster cells covering a model cell, as the list of their
values: a raster is a list of (covering model cell, value) pairs. -/
def covering (src : List (Nat × ℚ)) (cell : Nat) : List ℚ :=
  (src.filter fun p => p.1 == cell).map Prod.snd

/-- The arithmetic mean of a list of values. -/
def average (l : List ℚ) : ℚ := l.sum / l.length

/-- Modelled from the spec: the per-cell computation of
nlmod.resample.structured_da_to_ds with method "average" (code not in the
checked sources): a single pass over the source raster accumulating the sum
and count of the values covering the cell, returning their quotient, or NaN
(none) when no source value covers the cell. -/
def cellAverage (src : List (Nat × ℚ)) (cell : Nat) : Option ℚ :=
  let sn := src.foldl
    (fun acc p => if p.1 == cell then (acc.1 + p.2, acc.2 + 1) else acc)
    ((0 : ℚ), (0 : Nat))
  if sn.2 = 0 then none else some (sn.1 / sn.2)

/-- Modelled from the spec: nlmod.resample.structured_da_to_ds with method
"average" resamples a structured raster onto the model grid, one value per
model cell (code not in the checked sources). -/
def structured_da_to_ds (src : List (Nat × ℚ)) (cells : List Nat) : List (Option ℚ) :=
  cells.map (cellAverage src)

/-! ### Vertical aggregation by weighted mean -/

/-- A vertical interval of the source dataset, with its value. -/
structure SrcInterval where
  top : ℚ
  bot : ℚ
  value : ℚ
deriving DecidableEq

/-- The vertical overlap between a model layer spanning `lbot` to `ltop` and
a source interval, the weight used in the weighted mean. -/
def overlapWeight (ltop lbot : ℚ) (iv : SrcInterval) : ℚ :=
  max 0 (min ltop iv.top - max lbot iv.bot)

/-- Modelled from the spec: the per-layer, per-location computation of
nlmod.layers.aggregate_by_weighted_mean_to_ds (code not in the checked
sources): a single pass over the source intervals accumulating the total
weight and the weighted sum, returning their quotient, or NaN (none) when the
total weight is zero. -/
def aggregateLayer (ltop lbot : ℚ) (src : List SrcInterval) : Option ℚ :=
  let acc := src.foldl
    (fun acc iv =>
      (acc.1 + overlapWeight ltop lbot iv,
        acc.2 + overlapWeight ltop lbot iv * iv.value))
    ((0 : ℚ), (0 : ℚ))
  if acc.1 = 0 then none else some (acc.2 / acc.1)

/-- Modelled from the spec: nlmod.layers.aggregate_by_weighted_mean_to_ds
aggregates a source dataset vertically onto the model layers, one value per
model layer and map location (a location is a column of source intervals)
(code not in the checked sources). -/
def aggregate_by_weighted_mean_to_ds (layers : List (ℚ × ℚ))
    (cols : List (List SrcInterval)) : List (List (Option ℚ)) :=
  layers.map fun lay => cols.map fun src => aggregateLayer lay.1 lay.2 src

/-- The weighted mean as the spec words it: the sum of the overlap weights
times the values, divided by the sum of the overlap weights, undefined when
the total weight is zero. -/
def weightedMeanSpec (ltop lbot : ℚ) (src : List SrcInterval) : Option ℚ :=
  if (src.map (overlapWeight ltop lbot)).sum = 0 then none
  else some ((src.map fun iv => overlapWeight ltop lbot iv * iv.value).sum /
    (src.map (overlapWeight ltop lbot)).sum)

/-! ### Filling NaNs by nearest interpolation -/

/-- Squared euclidean distance between two grid positions. -/
def dist2 (p q : ℚ × ℚ) : ℚ := (p.1 - q.1) ^ 2 + (p.2 - q.2) ^ 2

/-- The non-NaN cells of an array, as position and value pairs; a cell is a
position together with an optional value, none standing for NaN. -/
def knownOf (cells : List ((ℚ × ℚ) × Option ℚ)) : List ((ℚ × ℚ) × ℚ) :=
  cells.filterMap fun c => c.2.map fun v => (c.1, v)

/-- The known cell nearest to position `p`, scanning the list and keeping the
candidate with the smaller squared distance. -/
def nearestPair (p : ℚ × ℚ) : List ((ℚ × ℚ) × ℚ) → Option ((ℚ × ℚ) × ℚ)
  | [] => none
  | kv :: rest =>
    match nearestPair p rest with
    | none => some kv
    | some b => if dist2 p kv.1 ≤ dist2 p b.1 then some kv else some b

/-- Modelled from the spec: the per-cell computation of
nlmod.resample.fillnan_da with method "nearest" (code not in the checked
sources): a cell holding a value keeps it, a NaN cell receives the value of
the nearest non-NaN cell. -/
def fillCell (known : List ((ℚ × ℚ) × ℚ)) (c : (ℚ × ℚ) × Option ℚ) :
    (ℚ × ℚ) × Option ℚ :=
  match c.2 with
  | some v => (c.1, some v)
  | none => (c.1, (nearestPair c.1 known).map Prod.snd)

/-- Modelled from the spec: nlmod.resample.fillnan_da with method "nearest"
fills the NaN cells of an array from the nearest non-NaN cells (code not in
the checked sources). -/
def fillnan_da (cells : List ((ℚ × ℚ) × Option ℚ)) : List ((ℚ × ℚ) × Option ℚ) :=
  cells.map (fillCell (knownOf cells))

/-- A concrete array with one NaN cell, used to instantiate the NaN-filling
theorem. -/
def demoCells : List ((ℚ × ℚ) × Option ℚ) := [((0, 0), some 1), ((1, 0), none)]

/-! ### Transport package builders and direct arguments -/

/-- The part of a model dataset read by the transport package builders: the
stored values of the package variables. -/
structure GwtDS where
  scheme : String
  alh : ℚ
  ath1 : ℚ
  porosity : ℚ
  sources : List String
deriving DecidableEq

/-- The advection package built by nlmod.gwt.adv. -/
structure AdvPackage where
  scheme : String
deriving DecidableEq

/-- The dispersion package built by nlmod.gwt.dsp. -/
structure DspPackage where
  alh : ℚ
  ath1 : ℚ
deriving DecidableEq

/-- The mass storage and transfer package built by nlmod.gwt.mst. -/
structure MstPackage where
  porosity : ℚ
deriving DecidableEq

/-- The source-sink mixing package built by nlmod.gwt.ssm. -/
structure SsmPackage where
  sources : List String
deriving DecidableEq

/-- Modelled from the spec: nlmod.gwt.adv builds the ADV package; a scheme
passed directly takes precedence, otherwise the value stored in the model
dataset is used (code not in the checked sources). -/
def adv (ds : GwtDS) (scheme : Option String) : AdvPackage :=
  ⟨scheme.getD ds.scheme⟩

/-- Modelled from the spec: nlmod.gwt.dsp builds the DSP package; each
dispersivity passed directly takes precedence over the stored value (code not
in the checked sources). -/
def dsp (ds : GwtDS) (alh ath1 : Option ℚ) : DspPackage :=
  ⟨alh.getD ds.alh, ath1.getD ds.ath1⟩

/-- Modelled from the spec: nlmod.gwt.mst builds the MST package; a porosity
passed directly takes precedence over the stored value (code not in the
checked sources). -/
def mst (ds : GwtDS) (porosity : Option ℚ) : MstPackage :=
  ⟨porosity.getD ds.porosity⟩

/-- Modelled from the spec: nlmod.gwt.ssm builds the SSM package; a source
list passed directly takes precedence over the stored value (code not in the
checked sources). -/
def ssm (ds : GwtDS) (sources : Option (List String)) : SsmPackage :=
  ⟨sources.getD ds.sources⟩

/-! ### Concentration at the groundwater surface -/

/-- The value of the uppermost layer whose entry is defined (non-NaN) in a
column of per-layer values ordered from the top layer down. -/
def firstDefined : List (Option ℚ) → Option ℚ
  | [] => none
  | some v :: _ => some v
  | none :: rest => firstDefined rest

/-- Modelled from the spec: nlmod.gwt.get_concentration_at_gw_surface
post-processes the concentration array (a list of time slices, each a list of
map locations, each a column of per-layer values, top layer first) to the
concentration at the groundwater surface per time step and location (code not
in the checked sources). -/
def get_concentration_at_gw_surface (c : List (List (List (Option ℚ)))) :
    List (List (Option ℚ)) :=
  c.map fun timeSlice => timeSlice.map firstDefined

/-- A concrete concentration array used to instantiate the
groundwater-surface theorem. -/
def demoConc : List (List (List (Option ℚ))) := [[[none, some 3, none]]]

end Nlmod

namespace Nlmod

theorem pointwater_freshwater_cancel (denseref drhodc h c z : ℚ)
    (h1 : denseref ≠ 0) (h2 : density denseref drhodc c ≠ 0) :
    pointwater_head denseref drhodc (freshwater_head denseref drhodc h c z) c z = h := by
  unfold pointwater_head freshwater_head
  field_simp
  ring

theorem roundtrip_aux (denseref drhodc : ℚ) (h1 : denseref ≠ 0) :
    ∀ (hp conc z : List ℚ), conc.length = hp.length → z.length = hp.length →
      (∀ cv ∈ conc, density denseref drhodc cv ≠ 0) →
      pointwater_head_da denseref drhodc
        (freshwater_head_da denseref drhodc hp conc z) conc z = hp := by
  intro hp
  induction hp with
  | nil =>
    intro conc z hc hz _
    cases conc with
    | nil =>
      cases z with
      | nil => rfl
      | cons _ _ => simp at hz
    | cons _ _ => simp at hc
  | cons h0 hrest ih =>
    intro conc z hc hz hne
    cases conc with
    | nil => simp at hc
    | cons c0 crest =>
      cases z with
      | nil => simp at hz
      | cons z0 zrest =>
        simp only [List.length_cons, Nat.succ.injEq] at hc hz
        have hne0 : density denseref drhodc c0 ≠ 0 := hne c0 (List.mem_cons_self _ _)
        have hner : ∀ cv ∈ crest, density denseref drhodc cv ≠ 0 :=
          fun cv hcv => hne cv (List.mem_cons_of_mem _ hcv)
        simp only [freshwater_head_da, pointwater_head_da, map3]
        rw [show map3 (fun h c zc => pointwater_head denseref drhodc h c zc)
              (map3 (fun h c zc => freshwater_head denseref drhodc h c zc) hrest crest zrest)
              crest zrest =
            pointwater_head_da denseref drhodc
              (freshwater_head_da denseref drhodc hrest crest zrest) crest zrest from rfl]
        rw [ih crest zrest hc hz hner,
          pointwater_freshwater_cancel denseref drhodc h0 c0 z0 h1 hne0]

/-- C1: converting point-water heads to equivalent freshwater heads and back
is a round-trip: for matching heads, concentration and elevation arrays on the
model grid, `pointwater_head_da` applied to `freshwater_head_da` returns the
original heads array. -/
theorem freshwater_pointwater_roundtrip (denseref drhodc : ℚ) (hp conc z : List ℚ)
    (h1 : denseref ≠ 0) (hc : conc.length = hp.length) (hz : z.length = hp.length)
    (hne : ∀ cv ∈ conc, density denseref drhodc cv ≠ 0) :
    pointwater_head_da denseref drhodc
      (freshwater_head_da denseref drhodc hp conc z) conc z = hp :=
  roundtrip_aux denseref drhodc h1 hp conc z hc hz hne

/-- C1 witness: the round-trip at concrete arrays, with the reference density
1000 and a density slope of 25/18000 as in the notebook example. -/
theorem freshwater_pointwater_roundtrip_witness :
    (1000 : ℚ) ≠ 0 ∧
    (∀ cv ∈ ([18000, 0] : List ℚ), density 1000 (25/18000) cv ≠ 0) ∧
    pointwater_head_da 1000 (25/18000)
      (freshwater_head_da 1000 (25/18000) [3/2, -2] [18000, 0] [-5, -10])
      [18000, 0] [-5, -10] = [3/2, -2] :=
  ⟨by norm_num,
    by intro cv hcv; simp only [List.mem_cons, List.mem_singleton] at hcv
       rcases hcv with h | h | h <;> first | (subst h; norm_num [density]) | simp at h,
    freshwater_pointwater_roundtrip 1000 (25/18000) [3/2, -2] [18000, 0] [-5, -10]
      (by norm_num) (by simp) (by simp)
      (by intro cv hcv; simp only [List.mem_cons, List.mem_singleton] at hcv
          rcases hcv with h | h | h <;> first | (subst h; norm_num [density]) | simp at h)⟩

/-- C10: the workflow file triggers the build job on a push to the dev branch,
although the comment in the same file (and the claim) says only pull requests
trigger on dev: the configured trigger and the documented trigger disagree at
the push-to-dev event, while a push to main and pull requests on main and dev
agree. -/
theorem ci_push_to_dev_triggers_build :
    buildTriggered (GhEvent.push "dev") = true ∧
    claimedTrigger (GhEvent.push "dev") = false ∧
    buildTriggered (GhEvent.push "main") = claimedTrigger (GhEvent.push "main") ∧
    buildTriggered (GhEvent.pullRequest "dev") = claimedTrigger (GhEvent.pullRequest "dev") ∧
    buildTriggered (GhEvent.push "feature") = false := by
  decide

/-- C2: caching of downloaded datasets is decided by a file-existence check:
if the file cachedir/cachename exists the result is loaded from that file, the
file system is unchanged and no download is performed; otherwise the data is
downloaded and written to that file. -/
theorem caching_by_file_existence (download : Unit → String)
    (cachedir cachename : String) (fs : FS) :
    (∀ d, fs.read (cachedir ++ "/" ++ cachename) = some d →
      cachedDownload download cachedir cachename fs = (d, fs, false)) ∧
    (fs.read (cachedir ++ "/" ++ cachename) = none →
      cachedDownload download cachedir cachename fs =
        (download (), ⟨(cachedir ++ "/" ++ cachename, download ()) :: fs.files⟩, true)) := by
  constructor
  · intro d hd
    simp [cachedDownload, hd]
  · intro hd
    simp [cachedDownload, hd]

/-- C2 witness: on a file system already holding the cache file, the stored
contents are returned, the file system is unchanged and no download occurs. -/
theorem caching_by_file_existence_witness :
    fsWithCache.read ("cache" ++ "/" ++ "combined_layer_ds.nc") =
      some "cached-layer-data" ∧
    cachedDownload regisDownload "cache" "combined_layer_ds.nc" fsWithCache =
      ("cached-layer-data", fsWithCache, false) :=
  ⟨by rfl,
    (caching_by_file_existence regisDownload "cache" "combined_layer_ds.nc"
      fsWithCache).1 "cached-layer-data" (by rfl)⟩

/-- C3: nlmod only prepares inputs and reads outputs: write_and_run writes the
model input files and hands them to the external engine, which produces the
outputs; get_heads_da and get_concentration_da leave the files unchanged and
their results depend only on the output files. -/
theorem write_and_run_prepares_readers_only_read
    (engine : List (String × String) → List (String × String))
    (simFiles : List (String × String)) (fs fs2 : ModelFiles) :
    (write_and_run engine simFiles fs).inputs = simFiles ∧
    (write_and_run engine simFiles fs).outputs = engine simFiles ∧
    (get_heads_da fs).2 = fs ∧
    (get_concentration_da fs).2 = fs ∧
    (fs.outputs = fs2.outputs →
      (get_heads_da fs).1 = (get_heads_da fs2).1 ∧
      (get_concentration_da fs).1 = (get_concentration_da fs2).1) := by
  refine ⟨rfl, rfl, rfl, rfl, fun h => ?_⟩
  constructor
  · simp [get_heads_da, h]
  · simp [get_concentration_da, h]

/-- C3 witness: the frame theorem at a concrete engine and concrete file
systems sharing the same outputs. -/
theorem write_and_run_prepares_witness :
    (ModelFiles.mk [("mfsim.nam", "sim")] [("heads", "h-data")]).outputs =
      (ModelFiles.mk [] [("heads", "h-data")]).outputs ∧
    (write_and_run demoEngine [("mfsim.nam", "sim")] (ModelFiles.mk [] [])).inputs =
      [("mfsim.nam", "sim")] ∧
    (get_heads_da (ModelFiles.mk [("mfsim.nam", "sim")] [("heads", "h-data")])).1 =
      (get_heads_da (ModelFiles.mk [] [("heads", "h-data")])).1 :=
  ⟨rfl,
    (write_and_run_prepares_readers_only_read demoEngine [("mfsim.nam", "sim")]
      (ModelFiles.mk [] []) (ModelFiles.mk [] [])).1,
    ((write_and_run_prepares_readers_only_read demoEngine [("mfsim.nam", "sim")]
      (ModelFiles.mk [("mfsim.nam", "sim")] [("heads", "h-data")])
      (ModelFiles.mk [] [("heads", "h-data")])).2.2.2.2 rfl).1⟩

/-- C4: when an auxiliary argument is provided and the transport attribute of
the model dataset is 1, building the GHB package registers GHB in the
ssm_sources attribute of the dataset. -/
theorem ghb_registers_ssm_source (ds : GwfDS) (bhead cond : ℚ)
    (auxiliary : Option ℚ) (ha : auxiliary.isSome = true)
    (ht : ds.transport = 1) :
    "GHB" ∈ (ghb ds bhead cond auxiliary).1.ssm_sources := by
  simp [ghb, ha, ht]

theorem cellAverage_fold (cell : Nat) :
    ∀ (src : List (Nat × ℚ)) (s : ℚ) (n : Nat),
      src.foldl (fun acc p => if p.1 == cell then (acc.1 + p.2, acc.2 + 1) else acc)
          (s, n) =
        (s + (covering src cell).sum, n + (covering src cell).length) := by
  intro src
  induction src with
  | nil =>
    intro s n
    simp [covering]
  | cons p rest ih =>
    intro s n
    by_cases h : p.1 == cell
    · rw [List.foldl_cons, if_pos h, ih]
      have hcov : covering (p :: rest) cell = p.2 :: covering rest cell := by
        simp [covering, List.filter_cons, h]
      rw [hcov]
      simp only [List.sum_cons, List.length_cons, Prod.mk.injEq]
      exact ⟨by ring, by omega⟩
    · rw [List.foldl_cons, if_neg h, ih]
      have hcov : covering (p :: rest) cell = covering rest cell := by
        simp [covering, List.filter_cons, h]
      rw [hcov]

theorem cellAverage_eq_average (src : List (Nat × ℚ)) (cell : Nat) :
    cellAverage src cell =
      if covering src cell = [] then none
      else some (average (covering src cell)) := by
  simp only [cellAverage]
  rw [cellAverage_fold cell src 0 0]
  by_cases h : covering src cell = []
  · simp [h, average]
  · have hlen : (covering src cell).length ≠ 0 := by
      simpa [List.length_eq_zero] using h
    simp [h, hlen, average]

/-- C5: structured_da_to_ds with method "average" returns, for every model
cell, the average of the source raster values covering that cell (and NaN for
cells not covered by any source value). -/
theorem structured_da_to_ds_average (src : List (Nat × ℚ)) (cells : List Nat) :
    structured_da_to_ds src cells = cells.map fun cell =>
      if covering src cell = [] then none
      else some (average (covering src cell)) := by
  have h : cellAverage src = fun cell =>
      if covering src cell = [] then none
      else some (average (covering src cell)) :=
    funext fun cell => cellAverage_eq_average src cell
  rw [structured_da_to_ds, h]

theorem aggregateLayer_fold (ltop lbot : ℚ) :
    ∀ (src : List SrcInterval) (w t : ℚ),
      src.foldl
          (fun acc iv =>
            (acc.1 + overlapWeight ltop lbot iv,
              acc.2 + overlapWeight ltop lbot iv * iv.value)) (w, t) =
        (w + (src.map (overlapWeight ltop lbot)).sum,
          t + (src.map fun iv => overlapWeight ltop lbot iv * iv.value).sum) := by
  intro src
  induction src with
  | nil =>
    intro w t
    simp
  | cons iv rest ih =>
    intro w t
    rw [List.foldl_cons, ih]
    simp only [List.map_cons, List.sum_cons, Prod.mk.injEq]
    exact ⟨by ring, by ring⟩

theorem aggregateLayer_eq_weightedMean (ltop lbot : ℚ) (src : List SrcInterval) :
    aggregateLayer ltop lbot src = weightedMeanSpec ltop lbot src := by
  simp only [aggregateLayer, weightedMeanSpec]
  rw [aggregateLayer_fold ltop lbot src 0 0]
  simp

/-- C6: aggregate_by_weighted_mean_to_ds returns, for every model layer and
every map location, the weighted mean of the source values over that layer,
with weights given by the vertical overlap between the source intervals and
the model layer. -/
theorem aggregate_by_weighted_mean_is_weighted_mean (layers : List (ℚ × ℚ))
    (cols : List (List SrcInterval)) :
    aggregate_by_weighted_mean_to_ds layers cols =
      layers.map fun lay => cols.map fun src => weightedMeanSpec lay.1 lay.2 src := by
  have h : (fun (lay : ℚ × ℚ) => cols.map fun src => aggregateLayer lay.1 lay.2 src) =
      fun lay => cols.map fun src => weightedMeanSpec lay.1 lay.2 src :=
    funext fun lay =>
      congrArg (fun f => cols.map f)
        (funext fun src => aggregateLayer_eq_weightedMean lay.1 lay.2 src)
  rw [aggregate_by_weighted_mean_to_ds, h]

/-- C4 witness: a transport model dataset with a concrete auxiliary value of
18000 registers GHB in ssm_sources. -/
theorem ghb_registers_ssm_source_witness :
    (some (18000 : ℚ)).isSome = true ∧ (GwfDS.mk 1 ["RCH"]).transport = 1 ∧
    "GHB" ∈ (ghb (GwfDS.mk 1 ["RCH"]) 0 100 (some 18000)).1.ssm_sources :=
  ⟨rfl, rfl, ghb_registers_ssm_source (GwfDS.mk 1 ["RCH"]) 0 100 (some 18000) rfl rfl⟩

theorem nearestPair_eq_none (p : ℚ × ℚ) :
    ∀ l : List ((ℚ × ℚ) × ℚ), nearestPair p l = none ↔ l = [] := by
  intro l
  cases l with
  | nil => simp [nearestPair]
  | cons a rest =>
    simp only [nearestPair]
    cases hr : nearestPair p rest with
    | none => simp
    | some b =>
      constructor
      · intro h
        by_cases hle : dist2 p a.1 ≤ dist2 p b.1 <;> simp [hle] at h
      · intro h
        exact absurd h (List.cons_ne_nil a rest)

theorem nearestPair_some_spec (p : ℚ × ℚ) :
    ∀ (l : List ((ℚ × ℚ) × ℚ)) (kv : (ℚ × ℚ) × ℚ), nearestPair p l = some kv →
      kv ∈ l ∧ ∀ kw ∈ l, dist2 p kv.1 ≤ dist2 p kw.1 := by
  intro l
  induction l with
  | nil =>
    intro kv h
    simp [nearestPair] at h
  | cons a rest ih =>
    intro kv h
    simp only [nearestPair] at h
    cases hr : nearestPair p rest with
    | none =>
      rw [hr] at h
      have hrest : rest = [] := (nearestPair_eq_none p rest).mp hr
      subst hrest
      cases h
      constructor
      · exact List.mem_singleton_self a
      · intro kw hkw
        rw [List.mem_singleton.mp hkw]
    | some b =>
      rw [hr] at h
      dsimp only at h
      obtain ⟨hbmem, hbmin⟩ := ih b hr
      by_cases hle : dist2 p a.1 ≤ dist2 p b.1
      · rw [if_pos hle] at h
        cases h
        constructor
        · exact List.mem_cons_self a rest
        · intro kw hkw
          rcases List.mem_cons.mp hkw with hkw | hkw
          · rw [hkw]
          · exact le_trans hle (hbmin kw hkw)
      · rw [if_neg hle] at h
        cases h
        constructor
        · exact List.mem_cons_of_mem a hbmem
        · intro kw hkw
          rcases List.mem_cons.mp hkw with hkw | hkw
          · rw [hkw]
            exact le_of_lt (lt_of_not_le hle)
          · exact hbmin kw hkw

/-- C7: fillnan_da with method "nearest" keeps every non-NaN cell unchanged,
and fills every NaN cell with the value of a non-NaN cell at minimal distance,
whenever at least one non-NaN cell exists. -/
theorem fillnan_da_nearest (cells : List ((ℚ × ℚ) × Option ℚ))
    (c : (ℚ × ℚ) × Option ℚ) (hc : c ∈ cells) (hne : knownOf cells ≠ []) :
    fillCell (knownOf cells) c ∈ fillnan_da cells ∧
    (∀ v, c.2 = some v → fillCell (knownOf cells) c = (c.1, some v)) ∧
    (c.2 = none → ∃ q v, (q, v) ∈ knownOf cells ∧
      fillCell (knownOf cells) c = (c.1, some v) ∧
      ∀ kw ∈ knownOf cells, dist2 c.1 q ≤ dist2 c.1 kw.1) := by
  refine ⟨List.mem_map_of_mem _ hc, ?_, ?_⟩
  · intro v hv
    simp [fillCell, hv]
  · intro hv
    obtain ⟨kv, hkv⟩ : ∃ kv, nearestPair c.1 (knownOf cells) = some kv := by
      cases h : nearestPair c.1 (knownOf cells) with
      | none => exact absurd ((nearestPair_eq_none c.1 (knownOf cells)).mp h) hne
      | some kv => exact ⟨kv, rfl⟩
    obtain ⟨hmem, hmin⟩ := nearestPair_some_spec c.1 (knownOf cells) kv hkv
    refine ⟨kv.1, kv.2, ?_, ?_, ?_⟩
    · simpa using hmem
    · simp [fillCell, hv, hkv]
    · exact hmin

/-- C7 witness: on a concrete array with one NaN cell and one known cell, the
filled cell is produced by fillnan_da. -/
theorem fillnan_da_nearest_witness :
    ((((1 : ℚ), (0 : ℚ)), (none : Option ℚ)) ∈ demoCells) ∧
    knownOf demoCells ≠ [] ∧
    fillCell (knownOf demoCells) (((1 : ℚ), (0 : ℚ)), none) ∈ fillnan_da demoCells :=
  ⟨by simp [demoCells], by simp [demoCells, knownOf],
    (fillnan_da_nearest demoCells (((1 : ℚ), (0 : ℚ)), none)
      (by simp [demoCells]) (by simp [demoCells, knownOf])).1⟩

/-- C8: for the transport package builders adv, dsp, mst and ssm, a variable
passed directly to the constructor takes precedence and the stored value in
the model dataset is ignored: two calls on model datasets differing only in
that stored variable, with the same value passed directly, produce the same
package. -/
theorem gwt_direct_arguments_take_precedence (ds1 ds2 : GwtDS) (s : String)
    (a p : ℚ) (srcs : List String) (hdsp : ds1.ath1 = ds2.ath1) :
    adv ds1 (some s) = adv ds2 (some s) ∧
    dsp ds1 (some a) none = dsp ds2 (some a) none ∧
    mst ds1 (some p) = mst ds2 (some p) ∧
    ssm ds1 (some srcs) = ssm ds2 (some srcs) := by
  simp [adv, dsp, mst, ssm, hdsp]

/-- C8 witness: two concrete datasets differing in the stored scheme, alh,
porosity and sources, with the same values passed directly, produce the same
packages. -/
theorem gwt_direct_arguments_take_precedence_witness :
    (GwtDS.mk "TVD" 1 (1/10) (3/10) []).ath1 =
      (GwtDS.mk "UPSTREAM" 99 (1/10) (1/2) ["GHB"]).ath1 ∧
    adv (GwtDS.mk "TVD" 1 (1/10) (3/10) []) (some "TVD") =
      adv (GwtDS.mk "UPSTREAM" 99 (1/10) (1/2) ["GHB"]) (some "TVD") ∧
    dsp (GwtDS.mk "TVD" 1 (1/10) (3/10) []) (some 5) none =
      dsp (GwtDS.mk "UPSTREAM" 99 (1/10) (1/2) ["GHB"]) (some 5) none :=
  ⟨rfl,
    (gwt_direct_arguments_take_precedence (GwtDS.mk "TVD" 1 (1/10) (3/10) [])
      (GwtDS.mk "UPSTREAM" 99 (1/10) (1/2) ["GHB"]) "TVD" 5 (3/10) [] rfl).1,
    (gwt_direct_arguments_take_precedence (GwtDS.mk "TVD" 1 (1/10) (3/10) [])
      (GwtDS.mk "UPSTREAM" 99 (1/10) (1/2) ["GHB"]) "TVD" 5 (3/10) [] rfl).2.1⟩

theorem firstDefined_spec (col : List (Option ℚ)) :
    (∃ v i, ∃ h : i < col.length, firstDefined col = some v ∧
      col.get ⟨i, h⟩ = some v ∧
      ∀ j, ∀ hj : j < col.length, j < i → col.get ⟨j, hj⟩ = none) ∨
    (firstDefined col = none ∧ ∀ x ∈ col, x = none) := by
  induction col with
  | nil =>
    right
    exact ⟨rfl, by simp⟩
  | cons o rest ih =>
    cases o with
    | some v =>
      left
      exact ⟨v, 0, by simp, rfl, rfl, fun j hj hj0 => absurd hj0 (Nat.not_lt_zero j)⟩
    | none =>
      rcases ih with ⟨v, i, h, hfd, hget, hmin⟩ | ⟨hfd, hall⟩
      · left
        refine ⟨v, i + 1, by simpa using Nat.succ_lt_succ h, ?_, ?_, ?_⟩
        · simpa [firstDefined] using hfd
        · simpa using hget
        · intro j hj hji
          cases j with
          | zero => rfl
          | succ j1 =>
            have hj1 : j1 < rest.length := by
              simpa using hj
            have := hmin j1 hj1 (Nat.lt_of_succ_lt_succ hji)
            simpa using this
      · right
        refine ⟨by simpa [firstDefined] using hfd, ?_⟩
        intro x hx
        rcases List.mem_cons.mp hx with hx | hx
        · exact hx
        · exact hall x hx

/-- C9: get_concentration_at_gw_surface returns, for every time step and map
location, the concentration at the groundwater surface: the value of the
uppermost layer whose concentration is defined (non-NaN) at that location,
all layers above it being NaN, and NaN when the whole column is NaN. -/
theorem concentration_at_gw_surface_uppermost (c : List (List (List (Option ℚ))))
    (ts : List (List (Option ℚ))) (col : List (Option ℚ))
    (hts : ts ∈ c) (hcol : col ∈ ts) :
    ts.map firstDefined ∈ get_concentration_at_gw_surface c ∧
    firstDefined col ∈ ts.map firstDefined ∧
    ((∃ v i, ∃ h : i < col.length, firstDefined col = some v ∧
        col.get ⟨i, h⟩ = some v ∧
        ∀ j, ∀ hj : j < col.length, j < i → col.get ⟨j, hj⟩ = none) ∨
      (firstDefined col = none ∧ ∀ x ∈ col, x = none)) :=
  ⟨List.mem_map_of_mem _ hts, List.mem_map_of_mem _ hcol, firstDefined_spec col⟩

/-- C9 witness: on a concrete concentration array, the mapped column appears
in the result of get_concentration_at_gw_surface. -/
theorem concentration_at_gw_surface_witness :
    ([[(none : Option ℚ), some 3, none]] ∈ demoConc) ∧
    ([(none : Option ℚ), some 3, none] ∈
      ([[(none : Option ℚ), some 3, none]] : List (List (Option ℚ)))) ∧
    firstDefined [(none : Option ℚ), some 3, none] ∈
      ([[(none : Option ℚ), some 3, none]] : List (List (Option ℚ))).map firstDefined :=
  ⟨by simp [demoConc], by simp,
    (concentration_at_gw_surface_uppermost demoConc
      [[(none : Option ℚ), some 3, none]] [(none : Option ℚ), some 3, none]
      (by simp [demoConc]) (by simp)).2.1⟩

end Nlmod
